import Mathlib

/-!
Verification of the `http2check` probe program (main.go) against its
natural-language specification.

The development shallowly embeds the string-processing and control-flow core
of `main.go`:

* Go `strings` helpers (`HasPrefix`, `HasSuffix`, `Contains`, `Replace`,
  `TrimSpace`) modelled on `List Char`;
* Go `net.ParseIP` / `IP.DefaultMask` (classic `parseIPv4` / `parseIPv6`
  from the Go standard library of the program's era), needed for the IPv4
  check guarding the IPv6 fix-up;
* `fixIPv6`, the normalization steps of `main`, interface-zone stripping,
  the error-text classifier, and the whole probe control flow of `main`
  (round trips and request construction supplied by an abstract `World`).
-/

namespace Http2Check

/-! ### Go string primitives -/

/-- Go `strings.HasPrefix s pre`. -/
def goHasPrefix (s pre : String) : Bool :=
  pre.data.isPrefixOf s.data

/-- Go `strings.HasSuffix s suf`. -/
def goHasSuffix (s suf : String) : Bool :=
  suf.data.isSuffixOf s.data

/-- Substring occurrence test on character lists: does `pat` occur
(contiguously) in `s`?  Matches Go `strings.Contains`. -/
def containsL (s pat : List Char) : Bool :=
  match s with
  | [] => pat.isPrefixOf ([] : List Char)
  | c :: rest => pat.isPrefixOf (c :: rest) || containsL rest pat

/-- Go `strings.Contains s sub`. -/
def goContains (s sub : String) : Bool :=
  containsL s.data sub.data

/-- Fuelled core of Go `strings.Replace s old new -1`: replace every
non-overlapping occurrence of `old` (left to right) by `new`. -/
def replaceAllL (fuel : Nat) (s old new : List Char) : List Char :=
  match fuel, s with
  | 0, s => s
  | _ + 1, [] => []
  | fuel + 1, c :: rest =>
    if old ≠ [] && old.isPrefixOf (c :: rest) then
      new ++ replaceAllL fuel ((c :: rest).drop old.length) old new
    else
      c :: replaceAllL fuel rest old new

/-- Go `strings.Replace s old new -1` (replace all occurrences). -/
def goReplaceAll (s old new : String) : String :=
  ⟨replaceAllL s.data.length s.data old.data new.data⟩

/-- The whitespace predicate of Go `unicode.IsSpace` (the characters
`strings.TrimSpace` strips). -/
def goIsSpace (c : Char) : Bool :=
  c = ' ' || c = '\t' || c = '\n' || c.toNat = 11 || c.toNat = 12 || c = '\r' ||
  c.toNat = 0x85 || c.toNat = 0xA0 || c.toNat = 0x1680 ||
  (0x2000 ≤ c.toNat && c.toNat ≤ 0x200A) ||
  c.toNat = 0x2028 || c.toNat = 0x2029 ||
  c.toNat = 0x202F || c.toNat = 0x205F || c.toNat = 0x3000

/-- Go `strings.TrimSpace`. -/
def goTrimSpace (s : String) : String :=
  ⟨((s.data.dropWhile goIsSpace).reverse.dropWhile goIsSpace).reverse⟩

/-- Drop the first `n` characters (Go slicing `s[n:]` on ASCII input). -/
def strDrop (s : String) (n : Nat) : String :=
  ⟨s.data.drop n⟩

/-! ### Go `net.ParseIP` and `IP.DefaultMask`

Classic Go `net` package parsing, as used by the program's
`net.ParseIP(url)` / `ipaddr.DefaultMask() == nil` IPv4 check. -/

/-- Decimal digit accumulation of Go `dtoi`: consume leading decimal digits;
fail when there are none or the value reaches the `0xFFFFFF` cutoff. -/
def dtoiL (s : List Char) : Option (Nat × List Char) :=
  let digits := s.takeWhile (·.isDigit)
  let rest := s.dropWhile (·.isDigit)
  if digits = [] then none
  else
    let n := digits.foldl (fun a c => a * 10 + (c.toNat - 48)) 0
    if n ≥ 0xFFFFFF then none else some (n, rest)

/-- Hex digit test of Go `xtoi`. -/
def isHexDigitGo (c : Char) : Bool :=
  ('0' ≤ c && c ≤ '9') || ('a' ≤ c && c ≤ 'f') || ('A' ≤ c && c ≤ 'F')

/-- Hex digit value. -/
def hexValGo (c : Char) : Nat :=
  if '0' ≤ c && c ≤ '9' then c.toNat - 48
  else if 'a' ≤ c && c ≤ 'f' then c.toNat - 87
  else c.toNat - 55

/-- Hex accumulation of Go `xtoi`: consume leading hex digits; fail when
there are none or the value reaches the `0xFFFFFF` cutoff. -/
def xtoiL (s : List Char) : Option (Nat × List Char) :=
  let digits := s.takeWhile isHexDigitGo
  let rest := s.dropWhile isHexDigitGo
  if digits = [] then none
  else
    let n := digits.foldl (fun a c => a * 16 + hexValGo c) 0
    if n ≥ 0xFFFFFF then none else some (n, rest)

/-- Go `parseIPv4` field recursion: `k` further dot-separated decimal fields
(each at most 255) must consume the whole string. -/
def parseV4Groups : Nat → List Char → Option (List Nat)
  | 0, s =>
    match dtoiL s with
    | some (n, []) => if n ≤ 255 then some [n] else none
    | _ => none
  | k + 1, s =>
    match dtoiL s with
    | some (n, '.' :: rest) =>
      if n ≤ 255 then (parseV4Groups k rest).map (n :: ·) else none
    | _ => none

/-- Go `parseIPv4`: the four bytes of a dotted-decimal IPv4 address. -/
def parseIPv4 (s : List Char) : Option (List Nat) :=
  parseV4Groups 3 s

/-- Loop of classic Go `parseIPv6`.  State: remaining input, bytes filled so
far (`i = bytes.length`), position of the `::` ellipsis if seen.  Returns
the final bytes, count, ellipsis and leftover input. -/
def parseV6Loop : Nat → List Char → Nat → List Nat → Option Nat →
    Option (List Nat × Nat × Option Nat × List Char)
  | 0, _, _, _, _ => none
  | fuel + 1, s, i, bytes, ell =>
    if 16 ≤ i then some (bytes, i, ell, s)
    else
      match xtoiL s with
      | none => none
      | some (n, rest) =>
        if n > 0xFFFF then none
        else
          match rest with
          | '.' :: _ =>
            if ell = none && i ≠ 12 then none
            else if i + 4 > 16 then none
            else
              match parseIPv4 s with
              | none => none
              | some b4 => some (bytes ++ b4, i + 4, ell, [])
          | [] => some (bytes ++ [n / 256, n % 256], i + 2, ell, [])
          | ':' :: rest1 =>
            match rest1 with
            | [] => none
            | c2 :: rest2 =>
              if c2 = ':' then
                if ell.isSome then none
                else if rest2 = [] then
                  some (bytes ++ [n / 256, n % 256], i + 2, some (i + 2), [])
                else
                  parseV6Loop fuel rest2 (i + 2) (bytes ++ [n / 256, n % 256])
                    (some (i + 2))
              else parseV6Loop fuel rest1 (i + 2) (bytes ++ [n / 256, n % 256]) ell
          | _ => none

/-- Classic Go `parseIPv6` (without zone): 16 bytes on success. -/
def parseV6 (s0 : List Char) : Option (List Nat) :=
  match s0 with
  | ':' :: ':' :: rest =>
    if rest = [] then some (List.replicate 16 0)
    else
      match parseV6Loop 10 rest 0 [] (some 0) with
      | none => none
      | some (bytes, i, ell, leftover) =>
        if leftover ≠ [] then none
        else if i < 16 then
          match ell with
          | none => none
          | some e => some (bytes.take e ++ List.replicate (16 - i) 0 ++ bytes.drop e)
        else if ell.isSome then none
        else some bytes
  | _ =>
    match parseV6Loop 10 s0 0 [] none with
    | none => none
    | some (bytes, i, ell, leftover) =>
      if leftover ≠ [] then none
      else if i < 16 then
        match ell with
        | none => none
        | some e => some (bytes.take e ++ List.replicate (16 - i) 0 ++ bytes.drop e)
      else if ell.isSome then none
      else some bytes

/-- Go `splitHostZone`: the part of the string before the last `%`
(the whole string when it has no `%`). -/
def splitHostZone (s : List Char) : List Char :=
  match s.reverse.dropWhile (· ≠ '%') with
  | [] => s
  | _ :: restRev => restRev.reverse

/-- First `.` or `:` in the string, if any (the dispatch of Go
`net.ParseIP`). -/
def firstIPSep : List Char → Option Char
  | [] => none
  | c :: rest => if c = '.' ∨ c = ':' then some c else firstIPSep rest

/-- Go `net.ParseIP` of the program's era: dispatch on the first `.`/`:` to
the IPv4 parser or the IPv6 parser (zone split off and ignored).  Returns
the address bytes (4 for IPv4, 16 for IPv6). -/
def parseIPChars (s : List Char) : Option (List Nat) :=
  match firstIPSep s with
  | some '.' => parseIPv4 s
  | some ':' => parseV6 (splitHostZone s)
  | _ => none

/-- Go `net.ParseIP` on a `String`. -/
def goParseIP (s : String) : Option (List Nat) :=
  parseIPChars s.data

/-- Go `IP.To4 != nil` on parsed address bytes: a 4-byte address, or a
16-byte address with the IPv4-mapped prefix `0 … 0 ff ff`. -/
def isTo4 (bytes : List Nat) : Bool :=
  bytes.length = 4 ||
  (bytes.length = 16 && (bytes.take 10).all (· = 0) &&
    bytes[10]? = some 0xFF && bytes[11]? = some 0xFF)

/-- `net.ParseIP(s).DefaultMask() != nil`: `DefaultMask` is non-nil exactly
when `To4` is non-nil (and a nil `IP` has a nil mask). -/
def goHasDefaultMask (s : String) : Bool :=
  match goParseIP s with
  | some bytes => isTo4 bytes
  | none => false

/-! ### `fixIPv6` and the normalization steps of `main` -/

/-- `fixIPv6` from main.go: conditionally strip a scheme prefix, remember
the implied default port, and wrap in brackets. -/
def fixIPv6 (url : String) : String :=
  let p1 : String × String :=
    if goHasPrefix url "http://" && !goHasSuffix url ":80" then
      (strDrop url 7, ":80")
    else (url, "")
  let p2 : String × String :=
    if goHasPrefix p1.1 "https://" && !goHasSuffix p1.1 ":443" then
      (strDrop p1.1 8, ":443")
    else p1
  "[" ++ p2.1 ++ "]" ++ p2.2

/-- The IPv6 detection/fix-up step of `main` (lines 95-104): apply `fixIPv6`
when the string does not parse as an IPv4 address with a default mask and
contains the literal `::` substring. -/
def ipv6Step (url : String) : String :=
  if !goHasDefaultMask url && goContains url "::" then fixIPv6 url else url

/-- The scheme-defaulting step of `main` (lines 105-107). -/
def schemeStep (url : String) : String :=
  if goContains url "://" then url else "https://" ++ url

/-- The pure normalization performed by `main` before the interface-zone
loop: IPv6 detection/fix-up, then scheme defaulting. -/
def normalizeUrl (url : String) : String :=
  schemeStep (ipv6Step url)

/-- The interface-zone stripping loop of `main` (lines 114-126): for the
first local interface whose `%name` occurs in the url, remove all
occurrences of `%name` (Go `strings.Replace` with count `-1`) and stop,
also reporting the removed zone (the diagnostic notice). -/
def stripZone : List String → String → String × Option String
  | [], url => (url, none)
  | iface :: rest, url =>
    let iName := "%" ++ iface
    if goContains url iName then (goReplaceAll url iName "", some iName)
    else stripZone rest url

/-! ### Outcome classifier (main.go lines 155-172) -/

/-- The closed outcome taxonomy of the spec, one variant per branch of the
error-text classification in `main`. -/
inductive Outcome where
  | protocolMismatch
  | noHTTP2Support
  | hostDown (detail : String)
  | noHTTPSSupport (detail : String)
  | hostUnresolvable
  | unclassified (detail : String)
deriving Repr, DecidableEq

/-- The classifier chain of `main`, in source order, applied to the
(already trimmed) error message. -/
def classify (errorMessage : String) : Outcome :=
  if errorMessage = "bad protocol:" then .protocolMismatch
  else if errorMessage = "http2: unsupported scheme and no Fallback" then .noHTTP2Support
  else if goHasPrefix errorMessage "dial tcp" &&
      goHasSuffix errorMessage ": connection refused" then
    .hostDown errorMessage
  else if goHasPrefix errorMessage "tls: oversized record received with length " then
    .noHTTPSSupport errorMessage
  else if goHasPrefix errorMessage "http2: unexpected ALPN protocol" then
    .protocolMismatch
  else if goHasPrefix errorMessage "dial tcp: lookup" then .hostUnresolvable
  else .unclassified errorMessage

/-- The classification table in the order the spec lists it (first rule
wins), used to compare the spec's table with the source's chain. -/
def claimClassify (t : String) : Outcome :=
  if t = "bad protocol:" then .protocolMismatch
  else if t = "http2: unsupported scheme and no Fallback" then .noHTTP2Support
  else if goHasPrefix t "http2: unexpected ALPN protocol" then .protocolMismatch
  else if goHasPrefix t "dial tcp" && goHasSuffix t ": connection refused" then
    .hostDown t
  else if goHasPrefix t "dial tcp: lookup" then .hostUnresolvable
  else if goHasPrefix t "tls: oversized record received with length " then
    .noHTTPSSupport t
  else .unclassified t

/-! ### Rendering and the probe control flow of `main` -/

/-- A failure line printed by `msg` in main.go: the bracketed category, the
human label and the optional parenthesized detail. -/
structure Report where
  subject : String
  label : String
  extra : Option String
deriving Repr, DecidableEq

/-- The `msg` call made by each matched classifier branch of `main`.
`Unclassified` has no `msg` call: `main` reaches `ErrExit` instead. -/
def renderOutcome : Outcome → Option Report
  | .protocolMismatch => some ⟨"protocol", "Not HTTP/2", none⟩
  | .noHTTP2Support => some ⟨"HTTP/2", "Not supported", none⟩
  | .hostDown d => some ⟨"host", "Down", some d⟩
  | .noHTTPSSupport d => some ⟨"protocol", "No HTTPS support", some d⟩
  | .hostUnresolvable => some ⟨"host", "Down", some "host not found"⟩
  | .unclassified _ => none

/-- The text content of a line printed by `msg` (colors are rendering
detail of the terminal collaborator and are not modelled). -/
def msgLine (r : Report) : String :=
  match r.extra with
  | none => "[" ++ r.subject ++ "] " ++ r.label
  | some e => "[" ++ r.subject ++ "] " ++ r.label ++ " (" ++ e ++ ")"

/-- How a program exit comes about in `main`.  `errExit` is
`TextOutput.ErrExit` (stderr message, `os.Exit(1)`); `reported` is a
classified failure (`msg` line, then `os.Exit(1)`); `success` falls off the
end of `main` (exit code 0); `nilRequestRoundTrip` is the path where
request construction failed with a "hexadecimal escape in host" error and
`main` nonetheless continues to `rt.RoundTrip(req)` with the nil request
returned by the failed `http.NewRequest` (what happens then is decided by
the http2 library, not by main.go). -/
inductive ExitOutcome where
  | success (proto status : String)
  | versionQuery
  | reported (r : Report)
  | errExit (m : String)
  | nilRequestRoundTrip (url : String)
deriving Repr, DecidableEq

/-- The exit code that main.go itself determines for each outcome.
`nilRequestRoundTrip` hands control to library code with a nil request,
so no exit code is determined by the source under analysis. -/
def exitCode : ExitOutcome → Option Nat
  | .success _ _ => some 0
  | .versionQuery => some 0
  | .reported _ => some 1
  | .errExit _ => some 1
  | .nilRequestRoundTrip _ => none

/-- The environment of one invocation: the optional URI argument, the local
interface names, and the behaviour of `http.NewRequest` (an error text when
construction fails) and of an HTTP/2 round trip against a given target
(protocol and status strings on success, an error text on failure). -/
structure World where
  argUrl : Option String
  ifaces : List String
  newReq : String → Option String
  roundTrip : String → Except String (String × String)

/-- What one invocation of the probe does: the lines handed to the
terminal-output collaborator (stdout `Println` calls, uncolored), the
targets actually round-tripped, in order, and the exit outcome. -/
structure Trace where
  lines : List String
  rtUrls : List String
  exit : ExitOutcome
deriving Repr, DecidableEq

/-- The fully normalized target of an invocation: default URL, IPv6
fix-up, scheme defaulting, then interface-zone stripping. -/
def theUrl (w : World) : String :=
  (stripZone w.ifaces (normalizeUrl (w.argUrl.getD "https://http2.golang.org"))).1

/-- The zone-removal notice of the invocation, when one is emitted. -/
def theNote (w : World) : Option String :=
  (stripZone w.ifaces (normalizeUrl (w.argUrl.getD "https://http2.golang.org"))).2

/-- The diagnostic line printed by the interface-zone loop. -/
def noteLines (w : World) : List String :=
  match theNote w with
  | some z => ["ignoring \"" ++ z ++ "\""]
  | none => []

/-- Classification of a transport error by `main`: trim, then either a
`msg` line and `os.Exit(1)`, or `ErrExit` with the trimmed text. -/
def classifyExit (e : String) : ExitOutcome × List String :=
  match renderOutcome (classify (goTrimSpace e)) with
  | some r => (.reported r, [msgLine r])
  | none => (.errExit (goTrimSpace e), [])

/-- The probe control flow of `main` (lines 89-179) after flag handling:
normalization, zone stripping, the `GET` diagnostic, request construction,
the first round trip, the one-shot "too many colons" retry, classification,
and the success output. -/
def mainFlow (w : World) : Trace :=
  match w.newReq (theUrl w) with
  | some ce =>
    if goHasSuffix ce "hexadecimal escape in host" then
      ⟨noteLines w ++ ["GET " ++ theUrl w], [],
        .nilRequestRoundTrip (fixIPv6 (theUrl w))⟩
    else
      ⟨noteLines w ++ ["GET " ++ theUrl w], [], .errExit ce⟩
  | none =>
    match w.roundTrip (theUrl w) with
    | .ok (p, st) =>
      ⟨noteLines w ++ ["GET " ++ theUrl w, "[protocol] " ++ p, "[status] " ++ st],
        [theUrl w], .success p st⟩
    | .error e1 =>
      if goContains e1 "too many colons" then
        match w.newReq (fixIPv6 (theUrl w)) with
        | some ce2 =>
          ⟨noteLines w ++ ["GET " ++ theUrl w, "IPv6 " ++ fixIPv6 (theUrl w)],
            [theUrl w], .errExit ce2⟩
        | none =>
          match w.roundTrip (fixIPv6 (theUrl w)) with
          | .ok (p, st) =>
            ⟨noteLines w ++ ["GET " ++ theUrl w, "IPv6 " ++ fixIPv6 (theUrl w),
                "[protocol] " ++ p, "[status] " ++ st],
              [theUrl w, fixIPv6 (theUrl w)], .success p st⟩
          | .error e2 =>
            ⟨noteLines w ++ ["GET " ++ theUrl w, "IPv6 " ++ fixIPv6 (theUrl w)] ++
                (classifyExit e2).2,
              [theUrl w, fixIPv6 (theUrl w)], (classifyExit e2).1⟩
      else
        ⟨noteLines w ++ ["GET " ++ theUrl w] ++ (classifyExit e1).2,
          [theUrl w], (classifyExit e1).1⟩

/-- The version banner of main.go. -/
def version_string : String := "http2check 0.6"

/-- `main` including the `--version` query (lines 82-85): the version flag
prints the banner and exits 0 before any probing. -/
def mainEntry (versionFlag : Bool) (w : World) : Trace :=
  if versionFlag then ⟨[version_string], [], .versionQuery⟩ else mainFlow w

/-- A concrete world whose first round trip fails with an IPv6
colon-ambiguity error and whose retry fails with a classifiable error. -/
def retryWorld : World where
  argUrl := some "h"
  ifaces := []
  newReq := fun _ => none
  roundTrip := fun u =>
    if u = "https://h" then Except.error "write: too many colons in address"
    else Except.error "bad protocol:"

/-- A world whose request construction fails with the hexadecimal-escape
error old Go `net/url` produced for zoned IPv6 hosts. -/
def hexEscapeWorld : World where
  argUrl := some "x"
  ifaces := []
  newReq := fun _ => some "parse https://x: hexadecimal escape in host"
  roundTrip := fun _ => Except.error "unused"

/-- A world whose request construction fails with an ordinary parse
error. -/
def badUrlWorld : World where
  argUrl := some "x"
  ifaces := []
  newReq := fun _ => some "parse x: first path segment in URL cannot contain colon"
  roundTrip := fun _ => Except.error "unused"

/-- Another hexadecimal-escape construction-failure world. -/
def hexEscapeWorld8 : World where
  argUrl := some "y"
  ifaces := []
  newReq := fun _ => some "parse https://y: hexadecimal escape in host"
  roundTrip := fun _ => Except.error "unused"

/-- A world whose single round trip succeeds. -/
def successWorld8 : World where
  argUrl := some "h"
  ifaces := []
  newReq := fun _ => none
  roundTrip := fun _ => Except.ok ("HTTP/2.0", "200 OK")

/-- A world whose single round trip fails with a classified error. -/
def failWorld8 : World where
  argUrl := some "g"
  ifaces := []
  newReq := fun _ => none
  roundTrip := fun _ => Except.error "bad protocol:"

/-! ### Helper lemmas about the string primitives -/

theorem string_data_append (s t : String) : (s ++ t).data = s.data ++ t.data := rfl

theorem string_append_empty (s : String) : s ++ "" = s :=
  congrArg String.mk (List.append_nil s.data)

theorem containsL_eq_true_iff (s pat : List Char) :
    containsL s pat = true ↔ pat <:+: s := by
  induction s with
  | nil => simp [containsL, List.isPrefixOf_iff_prefix]
  | cons c rest ih =>
    simp [containsL, List.isPrefixOf_iff_prefix, ih, List.infix_cons_iff]

theorem goHasPrefix_iff (s p : String) :
    goHasPrefix s p = true ↔ p.data <+: s.data := by
  simp [goHasPrefix]

theorem goHasSuffix_iff (s p : String) :
    goHasSuffix s p = true ↔ p.data <:+ s.data := by
  simp [goHasSuffix]

theorem goContains_iff (s sub : String) :
    goContains s sub = true ↔ sub.data <:+: s.data :=
  containsL_eq_true_iff s.data sub.data

/-- Two patterns neither of which is a prefix of the other cannot both be
prefixes of the same string. -/
theorem not_both_prefixes (s p q : String)
    (h1 : p.data.isPrefixOf q.data = false) (h2 : q.data.isPrefixOf p.data = false)
    (hp : goHasPrefix s p = true) : goHasPrefix s q = false := by
  rw [Bool.eq_false_iff]
  intro hq
  rcases Nat.le_total p.data.length q.data.length with hle | hle
  · have hpq := List.prefix_of_prefix_length_le
      ((goHasPrefix_iff s p).1 hp) ((goHasPrefix_iff s q).1 hq) hle
    rw [← List.isPrefixOf_iff_prefix] at hpq
    simp [h1] at hpq
  · have hqp := List.prefix_of_prefix_length_le
      ((goHasPrefix_iff s q).1 hq) ((goHasPrefix_iff s p).1 hp) hle
    rw [← List.isPrefixOf_iff_prefix] at hqp
    simp [h2] at hqp

/-- A prefix of a prefix is a prefix. -/
theorem goHasPrefix_trans (s p q : String)
    (hpq : p.data.isPrefixOf q.data = true) (hq : goHasPrefix s q = true) :
    goHasPrefix s p = true := by
  rw [goHasPrefix_iff]
  exact List.IsPrefix.trans (List.isPrefixOf_iff_prefix.1 hpq)
    ((goHasPrefix_iff s q).1 hq)

/-- An infix of `l ++ [c]` either lies inside `l` or is a suffix. -/
theorem infix_append_singleton (pat l : List Char) (c : Char)
    (h : pat <:+: l ++ [c]) : pat <:+: l ∨ pat <:+ l ++ [c] := by
  rcases h with ⟨s, t, hst⟩
  rcases t.eq_nil_or_concat with rfl | ⟨t0, c0, rfl⟩
  · right
    exact ⟨s, by simpa using hst⟩
  · left
    have h2 : (s ++ pat ++ t0) ++ [c0] = l ++ [c] := by
      simpa [List.append_assoc] using hst
    have h3 : s ++ pat ++ t0 = l := by
      have h4 := congrArg List.dropLast h2
      simpa using h4
    exact ⟨s, t0, h3⟩

/-- A nonempty suffix of `m ++ [c]` ends in `c`. -/
theorem suffix_last_mem (pat m : List Char) (c : Char)
    (h : pat <:+ m ++ [c]) (hne : pat ≠ []) : pat.getLast? = some c := by
  rcases h with ⟨s, hs⟩
  have h1 := congrArg List.getLast? hs
  rcases Option.isSome_iff_exists.1 (List.getLast?_isSome.2 hne) with ⟨x, hx⟩
  rw [List.getLast?_append, List.getLast?_append, hx] at h1
  rw [hx]
  simpa using h1

/-- Appending a character that cannot end the pattern creates no new
occurrence. -/
theorem contains_append_singleton_false (l : List Char) (c : Char) (pat : List Char)
    (hne : pat ≠ []) (hlast : pat.getLast? ≠ some c) (h : containsL l pat = false) :
    containsL (l ++ [c]) pat = false := by
  rw [Bool.eq_false_iff]
  intro hc
  rcases infix_append_singleton pat l c ((containsL_eq_true_iff _ _).1 hc) with hi | hs
  · rw [← containsL_eq_true_iff] at hi
    simp [h] at hi
  · exact hlast (suffix_last_mem pat l c hs hne)

/-- Prepending a character that starts no occurrence creates no new
occurrence. -/
theorem contains_cons_false (c : Char) (l pat : List Char)
    (hpre : pat.isPrefixOf (c :: l) = false) (h : containsL l pat = false) :
    containsL (c :: l) pat = false := by
  simp [containsL, hpre, h]

/-- A substring of a prefix of `u` is a substring of `u`. -/
theorem goContains_of_prefix (u p sub : String)
    (h1 : containsL p.data sub.data = true) (h2 : goHasPrefix u p = true) :
    goContains u sub = true := by
  rw [goContains_iff]
  exact ((containsL_eq_true_iff _ _).1 h1).trans ((goHasPrefix_iff u p).1 h2).isInfix

/-- A string not containing `://` starts with no scheme whose text contains
`://`. -/
theorem noPrefix_of_noSep (u p : String)
    (h1 : containsL p.data "://".data = true) (h : goContains u "://" = false) :
    goHasPrefix u p = false := by
  rw [Bool.eq_false_iff]
  intro hp
  have hc := goContains_of_prefix u p "://" h1 hp
  rw [h] at hc
  exact Bool.false_ne_true hc

/-- Case-split evaluation of `fixIPv6`. -/
theorem fixIPv6_eq (url : String) :
    fixIPv6 url =
      if goHasPrefix url "http://" && !goHasSuffix url ":80" then
        if goHasPrefix (strDrop url 7) "https://" && !goHasSuffix (strDrop url 7) ":443" then
          "[" ++ strDrop (strDrop url 7) 8 ++ "]" ++ ":443"
        else "[" ++ strDrop url 7 ++ "]" ++ ":80"
      else
        if goHasPrefix url "https://" && !goHasSuffix url ":443" then
          "[" ++ strDrop url 8 ++ "]" ++ ":443"
        else "[" ++ url ++ "]" := by
  unfold fixIPv6
  by_cases h1 : (goHasPrefix url "http://" && !goHasSuffix url ":80") = true
  · simp only [h1, if_true]
    by_cases h2 : (goHasPrefix (strDrop url 7) "https://" && !goHasSuffix (strDrop url 7) ":443") = true
    · simp [h2]
    · simp only [Bool.not_eq_true] at h2
      simp [h2]
  · simp only [Bool.not_eq_true] at h1
    simp only [h1, Bool.false_eq_true, if_false]
    by_cases h2 : (goHasPrefix url "https://" && !goHasSuffix url ":443") = true
    · simp [h2]
    · simp only [Bool.not_eq_true] at h2
      simp [h2, string_append_empty]

/-- `fixIPv6` on a string with neither scheme prefix wraps it in brackets
and appends no port. -/
theorem fixIPv6_no_scheme (u : String)
    (h1 : goHasPrefix u "http://" = false) (h2 : goHasPrefix u "https://" = false) :
    fixIPv6 u = "[" ++ u ++ "]" := by
  rw [fixIPv6_eq]
  simp [h1, h2]

/-! ### C1: the classifier follows the spec's first-rule-wins table -/

/-- C1: Classification is a pure, deterministic function of the trimmed
transport error text and agrees, on every input, with the spec's
first-rule-wins table (exact match on "bad protocol:" and the unsupported-
scheme text, then the ALPN prefix rule, the dial-tcp/connection-refused
rule with the text as detail, the dial-tcp-lookup prefix rule, the
oversized-TLS-record prefix rule with the text as detail, and otherwise
`Unclassified` carrying the text unmodified). -/
theorem classify_follows_claim_table (s : String) : classify s = claimClassify s := by
  by_cases h1 : s = "bad protocol:"
  · subst h1; decide
  by_cases h2 : s = "http2: unsupported scheme and no Fallback"
  · subst h2; decide
  unfold classify claimClassify
  rw [if_neg h1, if_neg h2, if_neg h1, if_neg h2]
  by_cases hA : goHasPrefix s "http2: unexpected ALPN protocol" = true
  · have hD := not_both_prefixes s "http2: unexpected ALPN protocol" "dial tcp"
      (by decide) (by decide) hA
    have hT := not_both_prefixes s "http2: unexpected ALPN protocol"
      "tls: oversized record received with length " (by decide) (by decide) hA
    simp [hA, hD, hT]
  · have hA2 : goHasPrefix s "http2: unexpected ALPN protocol" = false := by
      simpa using hA
    by_cases hDR : (goHasPrefix s "dial tcp" && goHasSuffix s ": connection refused") = true
    · simp [hA2, hDR]
    · have hDR2 : (goHasPrefix s "dial tcp" && goHasSuffix s ": connection refused") = false := by
        simpa using hDR
      by_cases hT : goHasPrefix s "tls: oversized record received with length " = true
      · have hL := not_both_prefixes s "tls: oversized record received with length "
          "dial tcp: lookup" (by decide) (by decide) hT
        simp [hA2, hDR2, hT, hL]
      · have hT2 : goHasPrefix s "tls: oversized record received with length " = false := by
          simpa using hT
        by_cases hL : goHasPrefix s "dial tcp: lookup" = true
        · simp [hA2, hDR2, hT2, hL]
        · have hL2 : goHasPrefix s "dial tcp: lookup" = false := by simpa using hL
          simp [hA2, hDR2, hT2, hL2]

/-! ### C2: at most two round trips, one retry, only on colon ambiguity -/

/-- C2: in every world, at most two round trips occur; two occur only when
the first round trip failed with an error containing "too many colons", in
which case the second target is the IPv6 fix-up of the first; a first
failure without that marker is classified with no retry; and when the
marker is present (and the rebuilt request constructs), the retry issues
exactly one second round trip whose failure is classified normally, never
retried again. -/
theorem probe_at_most_one_retry (w : World) :
    (mainFlow w).rtUrls.length ≤ 2 ∧
    ((mainFlow w).rtUrls.length = 2 →
      ∃ e1, w.roundTrip (theUrl w) = Except.error e1 ∧
        goContains e1 "too many colons" = true ∧
        (mainFlow w).rtUrls = [theUrl w, fixIPv6 (theUrl w)]) ∧
    (∀ e1, w.newReq (theUrl w) = none →
      w.roundTrip (theUrl w) = Except.error e1 →
      goContains e1 "too many colons" = false →
      (mainFlow w).rtUrls = [theUrl w] ∧ (mainFlow w).exit = (classifyExit e1).1) ∧
    (∀ e1, w.newReq (theUrl w) = none →
      w.roundTrip (theUrl w) = Except.error e1 →
      goContains e1 "too many colons" = true →
      w.newReq (fixIPv6 (theUrl w)) = none →
      (mainFlow w).rtUrls = [theUrl w, fixIPv6 (theUrl w)] ∧
      ∀ e2, w.roundTrip (fixIPv6 (theUrl w)) = Except.error e2 →
        (mainFlow w).exit = (classifyExit e2).1) := by
  rcases hnr : w.newReq (theUrl w) with _ | ce
  · rcases hrt : w.roundTrip (theUrl w) with e1 | v
    · by_cases hc : goContains e1 "too many colons" = true
      · rcases hnr2 : w.newReq (fixIPv6 (theUrl w)) with _ | ce2
        · rcases hrt2 : w.roundTrip (fixIPv6 (theUrl w)) with e2 | v2
          · refine ⟨?_, fun _ => ⟨e1, rfl, hc, ?_⟩, ?_, ?_⟩
            · simp [mainFlow, hnr, hrt, hc, hnr2, hrt2]
            · simp [mainFlow, hnr, hrt, hc, hnr2, hrt2]
            · intro e1x h0 h1 h2
              injection h1 with h1
              subst h1
              rw [h2] at hc
              exact absurd hc (by decide)
            · intro e1x h0 h1 h2 h3
              refine ⟨by simp [mainFlow, hnr, hrt, hc, hnr2, hrt2], ?_⟩
              intro e2x h4
              injection h4 with h4
              subst h4
              simp [mainFlow, hnr, hrt, hc, hnr2, hrt2]
          · rcases v2 with ⟨p2, st2⟩
            refine ⟨?_, fun _ => ⟨e1, rfl, hc, ?_⟩, ?_, ?_⟩
            · simp [mainFlow, hnr, hrt, hc, hnr2, hrt2]
            · simp [mainFlow, hnr, hrt, hc, hnr2, hrt2]
            · intro e1x h0 h1 h2
              injection h1 with h1
              subst h1
              rw [h2] at hc
              exact absurd hc (by decide)
            · intro e1x h0 h1 h2 h3
              refine ⟨by simp [mainFlow, hnr, hrt, hc, hnr2, hrt2], ?_⟩
              intro e2x h4
              exact Except.noConfusion h4
        · refine ⟨?_, ?_, ?_, ?_⟩
          · simp [mainFlow, hnr, hrt, hc, hnr2]
          · intro hlen
            simp [mainFlow, hnr, hrt, hc, hnr2] at hlen
          · intro e1x h0 h1 h2
            injection h1 with h1
            subst h1
            rw [h2] at hc
            exact absurd hc (by decide)
          · intro e1x h0 h1 h2 h3
            exact Option.noConfusion h3
      · have hc2 : goContains e1 "too many colons" = false := by
          simpa using hc
        refine ⟨?_, ?_, ?_, ?_⟩
        · simp [mainFlow, hnr, hrt, hc2]
        · intro hlen
          simp [mainFlow, hnr, hrt, hc2] at hlen
        · intro e1x h0 h1 h2
          injection h1 with h1
          subst h1
          exact ⟨by simp [mainFlow, hnr, hrt, hc2],
            by simp [mainFlow, hnr, hrt, hc2]⟩
        · intro e1x h0 h1 h2 h3
          injection h1 with h1
          subst h1
          rw [h2] at hc2
          exact absurd hc2 (by decide)
    · rcases v with ⟨p, st⟩
      refine ⟨?_, ?_, ?_, ?_⟩
      · simp [mainFlow, hnr, hrt]
      · intro hlen
        simp [mainFlow, hnr, hrt] at hlen
      · intro e1x h0 h1 h2
        exact Except.noConfusion h1
      · intro e1x h0 h1 h2 h3
        exact Except.noConfusion h1
  · refine ⟨?_, ?_, ?_, ?_⟩
    · by_cases hhex : goHasSuffix ce "hexadecimal escape in host" = true
      · simp [mainFlow, hnr, hhex]
      · have hhex2 : goHasSuffix ce "hexadecimal escape in host" = false := by
          simpa using hhex
        simp [mainFlow, hnr, hhex2]
    · intro hlen
      by_cases hhex : goHasSuffix ce "hexadecimal escape in host" = true
      · simp [mainFlow, hnr, hhex] at hlen
      · have hhex2 : goHasSuffix ce "hexadecimal escape in host" = false := by
          simpa using hhex
        simp [mainFlow, hnr, hhex2] at hlen
    · intro e1x h0 h1 h2
      exact Option.noConfusion h0
    · intro e1x h0 h1 h2 h3
      exact Option.noConfusion h0

theorem probe_at_most_one_retry_witness :
    (mainFlow retryWorld).rtUrls = ["https://h", fixIPv6 "https://h"] ∧
    (mainFlow retryWorld).exit = (classifyExit "bad protocol:").1 := by
  have h := (probe_at_most_one_retry retryWorld).2.2.2
    "write: too many colons in address" rfl rfl (by decide) rfl
  exact ⟨h.1, h.2 "bad protocol:" rfl⟩

/-! ### C3: the fix-up rule appends the implied default port -/

/-- C3: for an IPv6-literal target with scheme `https` and no explicit
`:443` suffix the fix-up produces `"[<address>]:443"`; with scheme `http`
and no explicit `:80` suffix it produces `"[<address>]:80"` (the address
part of an IPv6 literal never itself starts with `https://`, which the
second part assumes). -/
theorem fixIPv6_adds_default_port :
    (∀ a : String, goHasSuffix ("https://" ++ a) ":443" = false →
      fixIPv6 ("https://" ++ a) = "[" ++ a ++ "]:443") ∧
    (∀ a : String, goHasSuffix ("http://" ++ a) ":80" = false →
      goHasPrefix a "https://" = false →
      fixIPv6 ("http://" ++ a) = "[" ++ a ++ "]:80") := by
  constructor
  · intro a h
    have hp1 : goHasPrefix ("https://" ++ a) "http://" = false := rfl
    have hp2 : goHasPrefix ("https://" ++ a) "https://" = true := by
      simp [goHasPrefix, string_data_append]
    have hdrop : strDrop ("https://" ++ a) 8 = a := rfl
    rw [fixIPv6_eq]
    simp only [hp1, Bool.false_and, Bool.false_eq_true, if_false, hp2, h,
      Bool.not_false, Bool.and_self, if_true, hdrop]
    exact congrArg String.mk (by simp)
  · intro a h hps
    have hp1 : goHasPrefix ("http://" ++ a) "http://" = true := by
      simp [goHasPrefix, string_data_append]
    have hdrop : strDrop ("http://" ++ a) 7 = a := rfl
    rw [fixIPv6_eq]
    simp only [hp1, h, Bool.not_false, Bool.and_self, if_true, hdrop, hps,
      Bool.false_and, Bool.false_eq_true, if_false]
    exact congrArg String.mk (by simp)

theorem fixIPv6_adds_default_port_witness :
    fixIPv6 ("https://" ++ "::1") = "[" ++ "::1" ++ "]:443" ∧
    fixIPv6 ("http://" ++ "::1") = "[" ++ "::1" ++ "]:80" :=
  ⟨fixIPv6_adds_default_port.1 "::1" (by decide),
   fixIPv6_adds_default_port.2 "::1" (by decide) (by decide)⟩

/-! ### C9: inputs the fix-up only brackets -/

/-- C9: a string starting with neither scheme, or starting with `http://`
but ending in `:80`, or starting with `https://` but ending in `:443`, is
returned whole in brackets with no port appended and nothing stripped. -/
theorem fixIPv6_bracket_only :
    (∀ u : String, goHasPrefix u "http://" = false → goHasPrefix u "https://" = false →
      fixIPv6 u = "[" ++ u ++ "]") ∧
    (∀ u : String, goHasPrefix u "http://" = true → goHasSuffix u ":80" = true →
      fixIPv6 u = "[" ++ u ++ "]") ∧
    (∀ u : String, goHasPrefix u "https://" = true → goHasSuffix u ":443" = true →
      fixIPv6 u = "[" ++ u ++ "]") := by
  refine ⟨fun u h1 h2 => fixIPv6_no_scheme u h1 h2, ?_, ?_⟩
  · intro u h1 h2
    have hp2 : goHasPrefix u "https://" = false :=
      not_both_prefixes u "http://" "https://" (by decide) (by decide) h1
    rw [fixIPv6_eq]
    simp [h1, h2, hp2]
  · intro u h1 h2
    have hp1 : goHasPrefix u "http://" = false :=
      not_both_prefixes u "https://" "http://" (by decide) (by decide) h1
    rw [fixIPv6_eq]
    simp [hp1, h1, h2]

/-! ### C4: scheme defaulting, and the failure of idempotence -/

/-- C4 counterexample: normalization is not idempotent.  `"::1"` normalizes
to `"https://[::1]"`, but normalizing that again re-triggers the IPv6
fix-up (the string still fails the IPv4 check and still contains `::`) and
yields `"https://[[::1]]:443"`. -/
theorem normalize_not_idempotent :
    normalizeUrl "::1" = "https://[::1]" ∧
    normalizeUrl (normalizeUrl "::1") = "https://[[::1]]:443" ∧
    normalizeUrl (normalizeUrl "::1") ≠ normalizeUrl "::1" := by decide

/-- C4 amended: for every input lacking `://`, normalization prepends
exactly `https://` (to the result of the IPv6 fix-up step); normalization
is idempotent for every input not containing `::` (for strings containing
`::` the fix-up re-applies, as the counterexample shows). -/
theorem normalize_prepends_https (u : String) :
    (goContains u "://" = false → normalizeUrl u = "https://" ++ ipv6Step u) ∧
    (goContains u "::" = false → normalizeUrl (normalizeUrl u) = normalizeUrl u) := by
  constructor
  · intro h
    have hstep : goContains (ipv6Step u) "://" = false := by
      unfold ipv6Step
      by_cases hfix : (!goHasDefaultMask u && goContains u "::") = true
      · rw [if_pos hfix]
        have hp1 : goHasPrefix u "http://" = false :=
          noPrefix_of_noSep u "http://" (by decide) h
        have hp2 : goHasPrefix u "https://" = false :=
          noPrefix_of_noSep u "https://" (by decide) h
        rw [fixIPv6_no_scheme u hp1 hp2]
        show containsL ("[" ++ u ++ "]").data "://".data = false
        have hd : ("[" ++ u ++ "]").data = '[' :: (u.data ++ [']']) := by
          simp [string_data_append]
        rw [hd]
        apply contains_cons_false
        · rfl
        · exact contains_append_singleton_false u.data ']' "://".data (by decide)
            (by decide) h
      · rw [if_neg hfix]
        exact h
    unfold normalizeUrl schemeStep
    rw [hstep]
    simp
  · intro h
    by_cases hsep : goContains u "://" = true
    · have hu : normalizeUrl u = u := by
        unfold normalizeUrl ipv6Step schemeStep
        rw [h]
        simp [hsep]
      rw [hu]
      exact hu
    · have hsep2 : goContains u "://" = false := by simpa using hsep
      have hstep : ipv6Step u = u := by
        unfold ipv6Step
        rw [h]
        simp
      have hv : normalizeUrl u = "https://" ++ u := by
        unfold normalizeUrl schemeStep
        rw [hstep, hsep2]
        simp
      rw [hv]
      have hdc : goContains ("https://" ++ u) "::" = false := by
        have he : goContains ("https://" ++ u) "::" = goContains u "::" := rfl
        rw [he, h]
      have hsc : goContains ("https://" ++ u) "://" = true := by
        rw [goContains_iff, string_data_append]
        exact List.IsInfix.trans (by decide)
          (List.prefix_append "https://".data u.data).isInfix
      unfold normalizeUrl ipv6Step schemeStep
      rw [hdc]
      simp [hsc]

theorem normalize_prepends_https_witness :
    normalizeUrl "h" = "https://" ++ ipv6Step "h" ∧
    normalizeUrl (normalizeUrl "h") = normalizeUrl "h" :=
  ⟨(normalize_prepends_https "h").1 (by decide),
   (normalize_prepends_https "h").2 (by decide)⟩

/-! ### C5: interface-zone stripping -/

/-- C5 counterexample: with local interface `eth0`, stripping
`"a%eth0b%eth0c"` removes *both* occurrences of `%eth0` (Go
`strings.Replace` with count `-1`), so the result is neither the input nor
the input with only one occurrence removed. -/
theorem stripZone_removes_all_occurrences :
    (stripZone ["eth0"] "a%eth0b%eth0c").1 = "abc" ∧
    ("abc" : String) ≠ "a%eth0b%eth0c" ∧
    ("abc" : String) ≠ "ab%eth0c" ∧
    ("abc" : String) ≠ "a%eth0bc" := by decide

/-- C5 amended: a string containing no `%<iface>` for any local interface
is returned unchanged with no notice; whenever some listed interface's
`%<iface>` occurs in the string, a removal takes place and the diagnostic
notice is emitted; and the emitted notice `z` is `%<iface>` for the FIRST
interface (in enumeration order) whose `%<iface>` occurs — the loop stops
after it — with the result replacing every occurrence of that one `z` by
the empty string. -/
theorem stripZone_amended (ifaces : List String) (url : String) :
    ((∀ i ∈ ifaces, goContains url ("%" ++ i) = false) →
      stripZone ifaces url = (url, none)) ∧
    (∀ z, (stripZone ifaces url).2 = some z →
      ∃ pre i post, ifaces = pre ++ i :: post ∧
        (∀ j ∈ pre, goContains url ("%" ++ j) = false) ∧
        z = "%" ++ i ∧ goContains url z = true ∧
        (stripZone ifaces url).1 = goReplaceAll url z "") ∧
    (∀ i ∈ ifaces, goContains url ("%" ++ i) = true →
      ∃ z, (stripZone ifaces url).2 = some z) := by
  induction ifaces with
  | nil =>
    refine ⟨fun _ => rfl, ?_, ?_⟩
    · intro z hz
      exact Option.noConfusion hz
    · intro i hi
      exact absurd hi (List.not_mem_nil i)
  | cons i rest ih =>
    refine ⟨?_, ?_, ?_⟩
    · intro hall
      have hi : goContains url ("%" ++ i) = false := hall i (List.mem_cons_self i rest)
      have hrec : stripZone (i :: rest) url = stripZone rest url := by
        simp only [stripZone]
        rw [if_neg (by simp [hi])]
      rw [hrec]
      exact ih.1 (fun j hj => hall j (List.mem_cons_of_mem i hj))
    · intro z hz
      by_cases hi : goContains url ("%" ++ i) = true
      · have hthis : stripZone (i :: rest) url =
            (goReplaceAll url ("%" ++ i) "", some ("%" ++ i)) := by
          simp only [stripZone]
          rw [if_pos hi]
        rw [hthis] at hz
        injection hz with hz
        subst hz
        exact ⟨[], i, rest, rfl, by simp, rfl, hi, by rw [hthis]⟩
      · have hi2 : goContains url ("%" ++ i) = false := by simpa using hi
        have hrec : stripZone (i :: rest) url = stripZone rest url := by
          simp only [stripZone]
          rw [if_neg (by simp [hi2])]
        rw [hrec] at hz
        rcases ih.2.1 z hz with ⟨pre, j, post, heq, hpre, hzj, hcont, hres⟩
        refine ⟨i :: pre, j, post, by rw [heq, List.cons_append], ?_, hzj, hcont, ?_⟩
        · intro k hk
          rcases List.mem_cons.1 hk with rfl | hk2
          · exact hi2
          · exact hpre k hk2
        · rw [hrec]
          exact hres
    · intro i0 hi0 hmatch
      by_cases hi : goContains url ("%" ++ i) = true
      · have hthis : stripZone (i :: rest) url =
            (goReplaceAll url ("%" ++ i) "", some ("%" ++ i)) := by
          simp only [stripZone]
          rw [if_pos hi]
        exact ⟨"%" ++ i, by rw [hthis]⟩
      · have hi2 : goContains url ("%" ++ i) = false := by simpa using hi
        have hrec : stripZone (i :: rest) url = stripZone rest url := by
          simp only [stripZone]
          rw [if_neg (by simp [hi2])]
        rcases List.mem_cons.1 hi0 with rfl | hmem
        · rw [hmatch] at hi2
          exact absurd hi2 (by decide)
        · rw [hrec]
          exact ih.2.2 i0 hmem hmatch

theorem stripZone_amended_witness :
    stripZone ["lo0"] "https://h" = ("https://h", none) ∧
    (∃ pre i post, (["wlan0", "eth0"] : List String) = pre ++ i :: post ∧
      (∀ j ∈ pre, goContains "https://[::1%eth0]" ("%" ++ j) = false) ∧
      ("%eth0" : String) = "%" ++ i ∧
      goContains "https://[::1%eth0]" "%eth0" = true ∧
      (stripZone ["wlan0", "eth0"] "https://[::1%eth0]").1 =
        goReplaceAll "https://[::1%eth0]" "%eth0" "") ∧
    (∃ z, (stripZone ["wlan0", "eth0"] "https://[::1%eth0]").2 = some z) :=
  ⟨(stripZone_amended ["lo0"] "https://h").1 (by decide),
   (stripZone_amended ["wlan0", "eth0"] "https://[::1%eth0]").2.1 "%eth0" (by decide),
   (stripZone_amended ["wlan0", "eth0"] "https://[::1%eth0]").2.2 "eth0"
     (by decide) (by decide)⟩

/-! ### C7: IPv6 detection requires the literal `::` heuristic -/

/-- C7 counterexample: the full-form address `1:2:3:4:5:6:7:8` parses as an
IP address with no valid IPv4 default mask, yet the fix-up is *not*
applied, because the code additionally requires a literal `::` substring. -/
theorem ipv6_detection_counterexample :
    (goParseIP "1:2:3:4:5:6:7:8").isSome = true ∧
    goHasDefaultMask "1:2:3:4:5:6:7:8" = false ∧
    ipv6Step "1:2:3:4:5:6:7:8" = "1:2:3:4:5:6:7:8" ∧
    fixIPv6 "1:2:3:4:5:6:7:8" = "[1:2:3:4:5:6:7:8]" ∧
    ("1:2:3:4:5:6:7:8" : String) ≠ "[1:2:3:4:5:6:7:8]" := by decide

/-- C7 amended: the fix-up is applied exactly when the string fails the
IPv4 default-mask check *and* contains the literal `::` substring; strings
without `::` (full-form IPv6 addresses included) are never fixed up, and
strings passing the IPv4 check are never fixed up. -/
theorem ipv6_detection_amended (u : String) :
    (goHasDefaultMask u = false → goContains u "::" = true →
      ipv6Step u = fixIPv6 u) ∧
    (goContains u "::" = false → ipv6Step u = u) ∧
    (goHasDefaultMask u = true → ipv6Step u = u) := by
  refine ⟨?_, ?_, ?_⟩
  · intro h1 h2
    unfold ipv6Step
    rw [h1, h2]
    simp
  · intro h2
    unfold ipv6Step
    rw [h2]
    simp
  · intro h1
    unfold ipv6Step
    rw [h1]
    simp

theorem ipv6_detection_amended_witness :
    ipv6Step "::1" = fixIPv6 "::1" ∧
    ipv6Step "1:2:3:4:5:6:7:8" = "1:2:3:4:5:6:7:8" ∧
    ipv6Step "1.2.3.4" = "1.2.3.4" :=
  ⟨(ipv6_detection_amended "::1").1 (by decide) (by decide),
   (ipv6_detection_amended "1:2:3:4:5:6:7:8").2.1 (by decide),
   (ipv6_detection_amended "1.2.3.4").2.2 (by decide)⟩

/-! ### C10: the lookup-failure report -/

/-- C10 counterexample: an error text starting with `dial tcp: lookup` that
also ends with `: connection refused` is taken by the earlier
connection-refused rule, so its reported detail is the raw error text, not
the constant `host not found`. -/
theorem lookup_detail_counterexample :
    goHasPrefix "dial tcp: lookup x: connection refused" "dial tcp: lookup" = true ∧
    classify "dial tcp: lookup x: connection refused" =
      .hostDown "dial tcp: lookup x: connection refused" ∧
    renderOutcome (classify "dial tcp: lookup x: connection refused") =
      some ⟨"host", "Down", some "dial tcp: lookup x: connection refused"⟩ ∧
    ("dial tcp: lookup x: connection refused" : String) ≠ "host not found" := by decide

/-- C10 amended: every error text starting with `dial tcp: lookup` and not
ending with `: connection refused` is reported under category `host` with
the human label `Down` — the same label as the connection-refused case,
whose detail is the raw text — and with the constant detail
`host not found` instead of the raw error text. -/
theorem lookup_reported_as_down (s : String)
    (h1 : goHasPrefix s "dial tcp: lookup" = true)
    (h2 : goHasSuffix s ": connection refused" = false) :
    classify s = .hostUnresolvable ∧
    renderOutcome (classify s) = some ⟨"host", "Down", some "host not found"⟩ ∧
    renderOutcome (Outcome.hostDown s) = some ⟨"host", "Down", some s⟩ := by
  have hD : goHasPrefix s "dial tcp" = true :=
    goHasPrefix_trans s "dial tcp" "dial tcp: lookup" (by decide) h1
  have hT : goHasPrefix s "tls: oversized record received with length " = false :=
    not_both_prefixes s "dial tcp: lookup" "tls: oversized record received with length "
      (by decide) (by decide) h1
  have hA : goHasPrefix s "http2: unexpected ALPN protocol" = false :=
    not_both_prefixes s "dial tcp: lookup" "http2: unexpected ALPN protocol"
      (by decide) (by decide) h1
  have he1 : s ≠ "bad protocol:" := by
    intro hh
    subst hh
    exact absurd h1 (by decide)
  have he2 : s ≠ "http2: unsupported scheme and no Fallback" := by
    intro hh
    subst hh
    exact absurd h1 (by decide)
  have hcls : classify s = .hostUnresolvable := by
    unfold classify
    rw [if_neg he1, if_neg he2]
    simp [hD, h2, hT, hA, h1]
  exact ⟨hcls, by rw [hcls]; rfl, rfl⟩

theorem lookup_reported_as_down_witness :
    classify "dial tcp: lookup nohost: no such host" = .hostUnresolvable ∧
    renderOutcome (classify "dial tcp: lookup nohost: no such host") =
      some ⟨"host", "Down", some "host not found"⟩ ∧
    renderOutcome (Outcome.hostDown "dial tcp: lookup nohost: no such host") =
      some ⟨"host", "Down", some "dial tcp: lookup nohost: no such host"⟩ :=
  lookup_reported_as_down "dial tcp: lookup nohost: no such host" (by decide) (by decide)

theorem fixIPv6_bracket_only_witness :
    fixIPv6 "::1" = "[" ++ "::1" ++ "]" ∧
    fixIPv6 "http://h:80" = "[" ++ "http://h:80" ++ "]" ∧
    fixIPv6 "https://h:443" = "[" ++ "https://h:443" ++ "]" :=
  ⟨fixIPv6_bracket_only.1 "::1" (by decide) (by decide),
   fixIPv6_bracket_only.2.1 "http://h:80" (by decide) (by decide),
   fixIPv6_bracket_only.2.2 "https://h:443" (by decide) (by decide)⟩

/-! ### C6: request-construction failures -/

/-- C6 counterexample: a construction error ending in
`hexadecimal escape in host` is *not* fatal and is not surfaced with exit
code 1: `main` re-applies the IPv6 fix-up to the url and proceeds to
`rt.RoundTrip(req)` with the nil request left by the failed
`http.NewRequest`. -/
theorem construction_error_hex_not_fatal :
    (mainFlow hexEscapeWorld).exit = .nilRequestRoundTrip "[x]:443" ∧
    (mainFlow hexEscapeWorld).exit ≠
      .errExit "parse https://x: hexadecimal escape in host" ∧
    exitCode (mainFlow hexEscapeWorld).exit ≠ some 1 ∧
    (mainFlow hexEscapeWorld).rtUrls = [] := by decide

/-- C6 amended: a request-construction failure whose error text does not
end in `hexadecimal escape in host` is fatal and surfaced immediately via
`ErrExit` with exit code 1, with no round trip attempted and no
classification; an error ending in that suffix instead re-applies the
fix-up and proceeds to round trip the nil request. -/
theorem construction_error_fatal_unless_hex (w : World) (e : String)
    (hreq : w.newReq (theUrl w) = some e)
    (hhex : goHasSuffix e "hexadecimal escape in host" = false) :
    (mainFlow w).exit = .errExit e ∧ (mainFlow w).rtUrls = [] ∧
    exitCode (mainFlow w).exit = some 1 := by
  refine ⟨?_, ?_, ?_⟩ <;> simp [mainFlow, hreq, hhex, exitCode]

theorem construction_error_fatal_unless_hex_witness :
    (mainFlow badUrlWorld).exit =
      .errExit "parse x: first path segment in URL cannot contain colon" ∧
    (mainFlow badUrlWorld).rtUrls = [] ∧
    exitCode (mainFlow badUrlWorld).exit = some 1 :=
  construction_error_fatal_unless_hex badUrlWorld
    "parse x: first path segment in URL cannot contain colon" rfl (by decide)

/-! ### C8: exit codes and success output -/

/-- C8 counterexample: not every request-construction failure exits with
code 1: for the hexadecimal-escape construction error, `main` issues no
`os.Exit(1)` of its own and instead round trips the nil request, so no
exit code is determined by main.go. -/
theorem exit_code_hex_counterexample :
    (mainFlow hexEscapeWorld8).exit = .nilRequestRoundTrip "[y]:443" ∧
    exitCode (mainFlow hexEscapeWorld8).exit = none := by decide

/-- C8 amended: the version query prints the banner and exits 0; a
successful probe exits 0 and its output ends with exactly the two result
lines `[protocol] <proto>` and `[status] <status>` taken from the response
metadata; every classified failure and every `ErrExit` (including
unclassified failures and non-hex construction errors) exits 1.  The one
exception to "construction errors exit 1" is the hexadecimal-escape path
of the counterexample. -/
theorem exit_codes (vflag : Bool) (w : World) :
    (vflag = true → mainEntry vflag w = ⟨[version_string], [], .versionQuery⟩ ∧
      exitCode (mainEntry vflag w).exit = some 0) ∧
    (∀ p st, (mainFlow w).exit = .success p st →
      exitCode (mainFlow w).exit = some 0 ∧
      ∃ pre, (mainFlow w).lines = pre ++ ["[protocol] " ++ p, "[status] " ++ st]) ∧
    (∀ r, (mainFlow w).exit = .reported r → exitCode (mainFlow w).exit = some 1) ∧
    (∀ m, (mainFlow w).exit = .errExit m → exitCode (mainFlow w).exit = some 1) := by
  refine ⟨?_, ?_, fun r h => by rw [h]; rfl, fun m h => by rw [h]; rfl⟩
  · intro hv
    subst hv
    exact ⟨rfl, rfl⟩
  · intro p st h
    refine ⟨by rw [h]; rfl, ?_⟩
    rcases hnr : w.newReq (theUrl w) with _ | ce
    · rcases hrt : w.roundTrip (theUrl w) with e1 | v
      · by_cases hc : goContains e1 "too many colons" = true
        · rcases hnr2 : w.newReq (fixIPv6 (theUrl w)) with _ | ce2
          · rcases hrt2 : w.roundTrip (fixIPv6 (theUrl w)) with e2 | v2
            · exfalso
              have hx : (mainFlow w).exit = (classifyExit e2).1 := by
                simp [mainFlow, hnr, hrt, hc, hnr2, hrt2]
              rw [h] at hx
              unfold classifyExit at hx
              rcases hre : renderOutcome (classify (goTrimSpace e2)) with _ | r
              · rw [hre] at hx
                exact ExitOutcome.noConfusion hx
              · rw [hre] at hx
                exact ExitOutcome.noConfusion hx
            · rcases v2 with ⟨p2, st2⟩
              have hexit : (mainFlow w).exit = .success p2 st2 := by
                simp [mainFlow, hnr, hrt, hc, hnr2, hrt2]
              rw [h] at hexit
              injection hexit with hp hst
              subst hp
              subst hst
              refine ⟨noteLines w ++ ["GET " ++ theUrl w, "IPv6 " ++ fixIPv6 (theUrl w)], ?_⟩
              simp [mainFlow, hnr, hrt, hc, hnr2, hrt2]
          · exfalso
            have hx : (mainFlow w).exit = .errExit ce2 := by
              simp [mainFlow, hnr, hrt, hc, hnr2]
            rw [h] at hx
            exact ExitOutcome.noConfusion hx
        · have hc2 : goContains e1 "too many colons" = false := by simpa using hc
          exfalso
          have hx : (mainFlow w).exit = (classifyExit e1).1 := by
            simp [mainFlow, hnr, hrt, hc2]
          rw [h] at hx
          unfold classifyExit at hx
          rcases hre : renderOutcome (classify (goTrimSpace e1)) with _ | r
          · rw [hre] at hx
            exact ExitOutcome.noConfusion hx
          · rw [hre] at hx
            exact ExitOutcome.noConfusion hx
      · rcases v with ⟨p1, st1⟩
        have hexit : (mainFlow w).exit = .success p1 st1 := by
          simp [mainFlow, hnr, hrt]
        rw [h] at hexit
        injection hexit with hp hst
        subst hp
        subst hst
        refine ⟨noteLines w ++ ["GET " ++ theUrl w], ?_⟩
        simp [mainFlow, hnr, hrt]
    · by_cases hhex : goHasSuffix ce "hexadecimal escape in host" = true
      · exfalso
        have hx : (mainFlow w).exit = .nilRequestRoundTrip (fixIPv6 (theUrl w)) := by
          simp [mainFlow, hnr, hhex]
        rw [h] at hx
        exact ExitOutcome.noConfusion hx
      · have hhex2 : goHasSuffix ce "hexadecimal escape in host" = false := by
          simpa using hhex
        exfalso
        have hx : (mainFlow w).exit = .errExit ce := by
          simp [mainFlow, hnr, hhex2]
        rw [h] at hx
        exact ExitOutcome.noConfusion hx

theorem exit_codes_witness :
    (mainEntry true successWorld8 = ⟨[version_string], [], .versionQuery⟩ ∧
      exitCode (mainEntry true successWorld8).exit = some 0) ∧
    (exitCode (mainFlow successWorld8).exit = some 0 ∧
      ∃ pre, (mainFlow successWorld8).lines =
        pre ++ ["[protocol] " ++ "HTTP/2.0", "[status] " ++ "200 OK"]) ∧
    exitCode (mainFlow failWorld8).exit = some 1 :=
  ⟨(exit_codes true successWorld8).1 rfl,
   (exit_codes true successWorld8).2.1 "HTTP/2.0" "200 OK" (by decide),
   (exit_codes false failWorld8).2.2.1 ⟨"protocol", "Not HTTP/2", none⟩ (by decide)⟩

end Http2Check
